import Mathlib

/-!
Shallow embedding of the user-management service
(src/src/users/users.service.ts together with the schemas in
src/src/schemas).  MongoDB ObjectIds are opaque identifiers and are
modelled as `Nat`; JavaScript `Date` values are modelled as
calendar triples compared lexicographically, which matches MongoDB's
chronological comparison of Date values.  The Redis cache is an
association list from user id to a snapshot with an absolute expiry
time; `SET key val EX 3600` stores the snapshot with expiry
`now + 3600` and `GET` returns the value only while `now` is before
the expiry.  JSON serialization into the cache and parsing back are
modelled as the identity on the record.
-/

namespace UserManagement

/-- A calendar date (JavaScript `Date` reduced to year/month/day,
month written 1-based; `new Date(y, 0, 1)` is `⟨y, 1, 1⟩`).
Comparison is lexicographic, i.e. chronological. -/
structure SimpleDate where
  year : Int
  month : Int
  day : Int
deriving DecidableEq

/-- Chronological (lexicographic) order on dates, as MongoDB compares
`Date` values in `$gte` / `$lte` range queries. -/
def SimpleDate.le (a b : SimpleDate) : Bool :=
  if a.year < b.year then true
  else if b.year < a.year then false
  else if a.month < b.month then true
  else if b.month < a.month then false
  else decide (a.day ≤ b.day)

/-- `d.setFullYear(d.getFullYear() - k)`: move a date `k` years back,
keeping month and day.  (JavaScript rolls Feb 29 over to Mar 1 when the
target year is not a leap year; no date used in the theorems below is
Feb 29.) -/
def SimpleDate.subYears (d : SimpleDate) (k : Int) : SimpleDate :=
  { d with year := d.year - k }

/-- A user document (src/src/schemas/User.schema.ts plus the implicit
Mongo `_id`). -/
structure User where
  _id : Nat
  name : String
  surname : String
  username : String
  birthdate : SimpleDate
deriving DecidableEq

/-- A block edge document (src/src/schemas/Block.schema.ts plus the
implicit Mongo `_id`): `userId` is the blocker, `blockedUserId` the
blockee. -/
structure Block where
  _id : Nat
  userId : Nat
  blockedUserId : Nat
deriving DecidableEq

/-- One Redis cache entry: the cached user snapshot and the absolute
time at which the key expires. -/
structure CacheEntry where
  val : User
  expiresAt : Nat
deriving DecidableEq

/-- The mutable state the service operates on: the two Mongo
collections and the Redis cache keyed by user id. -/
structure ServiceState where
  users : List User
  blocks : List Block
  cache : List (Nat × CacheEntry)
deriving DecidableEq

/-- `userModel.findById`. -/
def findById (users : List User) (uid : Nat) : Option User :=
  users.find? (fun u => u._id == uid)

/-- `redis.get ("user:" ++ uid)` at time `now`: an entry is visible only
while `now` is before its expiry. -/
def redisGet (cache : List (Nat × CacheEntry)) (now uid : Nat) : Option User :=
  match cache.find? (fun e => e.1 == uid) with
  | some e => if now < e.2.expiresAt then some e.2.val else none
  | none => none

/-- `redis.set ("user:" ++ uid) snapshot EX ttl`: overwrite the key with
the snapshot, expiring at `expiresAt`. -/
def redisSetEx (cache : List (Nat × CacheEntry)) (uid : Nat) (u : User)
    (expiresAt : Nat) : List (Nat × CacheEntry) :=
  (uid, ⟨u, expiresAt⟩) :: cache.filter (fun e => e.1 != uid)

/-- `getUser` (users.service.ts lines 81-107), after the token has been
verified down to the subject id: consult the cache; on a hit return the
cached snapshot; on a miss read the store, cache a found record for
3600 seconds, and return it (a missing record is not cached). -/
def getUser (st : ServiceState) (now uid : Nat) : Option User × ServiceState :=
  match redisGet st.cache now uid with
  | some cachedUser => (some cachedUser, st)
  | none =>
    match findById st.users uid with
    | some user =>
      (some user, { st with cache := redisSetEx st.cache uid user (now + 3600) })
    | none => (none, st)

/-- `deleteUser` (lines 115-130): `findByIdAndDelete` on the user, then
`blockModel.deleteMany` with `$or` on `userId` / `blockedUserId`.
The Redis cache is not touched. -/
def deleteUser (st : ServiceState) (uid : Nat) : ServiceState × Bool :=
  ({ st with
      users := st.users.filter (fun u => u._id != uid),
      blocks := st.blocks.filter
        (fun b => !(b.userId == uid || b.blockedUserId == uid)) },
   true)

/-- The failures the service raises (`throw new Error(...)` with the
quoted message, plus the TypeError that dereferencing a null actor
record would raise). -/
inductive ServiceError where
  | userNotFound
  | cannotBlockSelf
  | alreadyBlocked
  | nullActorAccess
deriving DecidableEq

/-- `blockUser` (lines 140-174): look up both records; missing target
is `'User not found'`; blocking oneself is `'You cannot block
yourself'`; an existing `(actor, target)` edge is
`'User already blocked'`; otherwise save a new edge and return the
target's record.  `newBlockId` stands for the `_id` Mongo generates for
the saved edge. -/
def blockUser (st : ServiceState) (actorId targetId newBlockId : Nat) :
    Except ServiceError (User × ServiceState) :=
  let user := findById st.users actorId
  match findById st.users targetId with
  | none => .error .userNotFound
  | some blockedUser =>
    if targetId == actorId then .error .cannotBlockSelf
    else
      match user with
      | none => .error .nullActorAccess
      | some actor =>
        match st.blocks.find?
            (fun b => b.userId == actor._id && b.blockedUserId == blockedUser._id) with
        | some _ => .error .alreadyBlocked
        | none =>
          .ok (blockedUser,
            { st with blocks := st.blocks ++ [⟨newBlockId, actor._id, blockedUser._id⟩] })

/-- `unblockUser` (lines 245-259): `deleteMany` on the exact ordered
pair, then `{ success: true }` unconditionally. -/
def unblockUser (st : ServiceState) (actorId targetId : Nat) :
    ServiceState × Bool :=
  ({ st with
      blocks :=
        st.blocks.filter
          (fun b => !(b.userId == actorId && b.blockedUserId == targetId)) },
   true)

/-- The partial update body (src dto `UpdateUser.dto`): each field is
optional. -/
structure UpdateUserDto where
  name : Option String
  surname : Option String
  username : Option String
  birthdate : Option SimpleDate
deriving DecidableEq

/-- Apply a partial update to a record, as Mongo's
`findByIdAndUpdate(id, dto)` sets exactly the fields present in the
dto. -/
def applyUpdate (u : User) (dto : UpdateUserDto) : User :=
  { u with
      name := dto.name.getD u.name,
      surname := dto.surname.getD u.surname,
      username := dto.username.getD u.username,
      birthdate := dto.birthdate.getD u.birthdate }

/-- `findByIdAndUpdate(uid, dto, { new: true })`: returns the updated
record (or `none` when no record has this id) together with the updated
collection. -/
def findByIdAndUpdate (users : List User) (uid : Nat) (dto : UpdateUserDto) :
    Option User × List User :=
  match findById users uid with
  | none => (none, users)
  | some u =>
    let u1 := applyUpdate u dto
    (some u1, users.map (fun v => if v._id == uid then u1 else v))

/-- `updateUser` (lines 268-294): update the store record; a missing
record is `'User not found'`; on success overwrite the cache entry for
the subject with the new snapshot for 3600 seconds and return it. -/
def updateUser (st : ServiceState) (now uid : Nat) (dto : UpdateUserDto) :
    Except ServiceError (User × ServiceState) :=
  match findByIdAndUpdate st.users uid dto with
  | (none, _) => .error .userNotFound
  | (some updatedUser, users1) =>
    .ok (updatedUser,
      { st with users := users1,
                cache := redisSetEx st.cache uid updatedUser (now + 3600) })

/-- `leadsWith need hay`: `need` is an initial segment of `hay`. -/
def leadsWith : List Char → List Char → Bool
  | [], _ => true
  | _ :: _, [] => false
  | a :: as, b :: bs => a == b && leadsWith as bs

/-- `hasSub need hay`: `need` occurs contiguously somewhere in `hay`. -/
def hasSub (need : List Char) : List Char → Bool
  | [] => need.isEmpty
  | c :: t => leadsWith need (c :: t) || hasSub need t

/-- `{ username: { $regex: new RegExp(fragment, 'i') } }` for a literal
fragment: case-insensitive containment. -/
def ciContains (hay frag : String) : Bool :=
  hasSub (frag.toList.map Char.toLower) (hay.toList.map Char.toLower)

/-- The optional `birthdate` range of the search's `ageCondition`
object: `$gte` and/or `$lte` bounds. -/
structure DateFilter where
  gte : Option SimpleDate
  lte : Option SimpleDate
deriving DecidableEq

/-- The `ageCondition` object built in `searchUsers` (lines 198-217):
`none` is the empty object `{}` (no `birthdate` key set).
Both bounds given and `minAge <= maxAge`: `[today − maxAge years,
today − minAge years]`.  Both given, inverted: nothing is set.  Only
`minAge`: `$lte` January 1 of `currentYear − minAge`
(`new Date(minBirthYear, 0, 1)`).  Only `maxAge`: `$gte`
`today − maxAge years`. -/
def mkAgeCondition (today : SimpleDate) (minAge maxAge : Option Int) :
    Option DateFilter :=
  match minAge, maxAge with
  | some mn, some mx =>
    if mn ≤ mx then
      some { gte := some (today.subYears mx), lte := some (today.subYears mn) }
    else none
  | some mn, none =>
    some { gte := none, lte := some ⟨today.year - mn, 1, 1⟩ }
  | none, some mx =>
    some { gte := some (today.subYears mx), lte := none }
  | none, none => none

/-- MongoDB evaluation of the `ageCondition` object against a
document's `birthdate`.  Crucially, the empty query document `{}`
matches every document — including as a branch of `$or`. -/
def birthdateFilterMatches (cond : Option DateFilter) (b : SimpleDate) : Bool :=
  match cond with
  | none => true
  | some f =>
    (match f.gte with | none => true | some lo => lo.le b) &&
    (match f.lte with | none => true | some hi => b.le hi)

/-- `searchUsers` (lines 185-236), after token verification: collect
the actor's outgoing block edges, map them to ids — the code
destructures `({ _id }) => _id`, taking each block DOCUMENT's own id,
not its `blockedUserId` — build the age condition, and query users with
`_id` distinct from the actor and not in that id list, satisfying
`$or` of the case-insensitive username regex and the age condition. -/
def searchUsers (st : ServiceState) (today : SimpleDate) (actorId : Nat)
    (username : String) (minAge maxAge : Option Int) : List User :=
  let blockedUsers := st.blocks.filter (fun b => b.userId == actorId)
  let blockedUserIds := blockedUsers.map (fun b => b._id)
  let ageCondition := mkAgeCondition today minAge maxAge
  st.users.filter (fun u =>
    (u._id != actorId) && !(blockedUserIds.contains u._id) &&
    (ciContains u.username username ||
      birthdateFilterMatches ageCondition u.birthdate))

/-- Modelled from the spec: the Token Codec of §4.1 is the external
`jsonwebtoken` library (`jwt.sign` / `jwt.verify` with a process-wide
secret), not part of src/.  The HMAC is modelled as a concrete keyed
hash of the secret and the subject. -/
def macSig (secret : String) (subject : Nat) : Nat :=
  secret.toList.foldl (fun a c => a * 31 + c.toNat) 7 * 1000003 + subject

/-- Modelled from the spec: a token on the wire is either a
well-formed signed assertion `{ subject }` with a signature, or a
malformed blob. -/
inductive TokenWire where
  | signed (subject : Nat) (sig : Nat)
  | malformed (raw : String)
deriving DecidableEq

/-- Modelled from the spec: token verification failure
(`InvalidTokenError`). -/
inductive TokenError where
  | invalidToken
deriving DecidableEq

/-- Modelled from the spec: `issue(subject)` — `jwt.sign({ id }, secret)`
as used at account creation (users.service.ts lines 45-49). -/
def jwtSign (secret : String) (subject : Nat) : TokenWire :=
  .signed subject (macSig secret subject)

/-- Modelled from the spec: `verify(token)` — `jwt.verify(token, secret)`
as used on every authenticated path (e.g. lines 83-85): a malformed
token or a signature that does not match the configured secret fails
with `InvalidTokenError`; success yields the embedded subject. -/
def jwtVerify (secret : String) : TokenWire → Except TokenError Nat
  | .signed subject sig =>
    if sig == macSig secret subject then .ok subject
    else .error .invalidToken
  | .malformed _ => .error .invalidToken

/-- The age predicate exactly as the spec words it (§4.5, step 3), for
comparison against `mkAgeCondition`: in particular, when only `minAge`
is given it accepts birthdates on or before `today − minAge years`.
The cases with no age predicate accept every birthdate, since an
absent predicate constrains nothing. -/
def specAgeAccepts (today : SimpleDate) (minAge maxAge : Option Int)
    (b : SimpleDate) : Bool :=
  match minAge, maxAge with
  | some mn, some mx =>
    if mn ≤ mx then (today.subYears mx).le b && b.le (today.subYears mn)
    else true
  | some mn, none => b.le (today.subYears mn)
  | none, some mx => (today.subYears mx).le b
  | none, none => true

/-- The age predicate as the code actually builds it, in the spec's
vocabulary: identical to `specAgeAccepts` except that the
`minAge`-only case accepts birthdates on or before January 1 of
`currentYear − minAge`. -/
def amendedAgeAccepts (today : SimpleDate) (minAge maxAge : Option Int)
    (b : SimpleDate) : Bool :=
  match minAge, maxAge with
  | some mn, some mx =>
    if mn ≤ mx then (today.subYears mx).le b && b.le (today.subYears mn)
    else true
  | some mn, none => b.le ⟨today.year - mn, 1, 1⟩
  | none, some mx => (today.subYears mx).le b
  | none, none => true

/-! Concrete fixtures used by the counterexamples and witnesses. -/

def dToday : SimpleDate := ⟨2026, 10, 12⟩

def userAlice : User := ⟨1, "Alice", "A", "alice", ⟨2000, 1, 1⟩⟩

def userBob : User := ⟨2, "Bob", "B", "bob", ⟨2000, 1, 1⟩⟩

def userCarol : User := ⟨3, "Carol", "C", "carol", ⟨1990, 5, 5⟩⟩

/-- State for C1: Alice (id 1) has blocked Bob (id 2); the edge
document's own id is 100. -/
def stBlocked : ServiceState := ⟨[userAlice, userBob], [⟨100, 1, 2⟩], []⟩

/-- State for C2: Alice and Carol, no block edges. -/
def stPlain : ServiceState := ⟨[userAlice, userCarol], [], []⟩

/-- C1: the claim says that after `block(A, B)` a search by `A` never
returns `B`.  The code violates it: `searchUsers` maps the actor's
block documents with `({ _id }) => _id`, collecting each block
DOCUMENT's id (here 100) instead of its `blockedUserId` (2), so the
`$nin` exclusion list never contains the blocked user's id and Bob is
returned to Alice, block edge notwithstanding. -/
theorem C1_blocked_user_still_returned :
    (Block.mk 100 1 2) ∈ stBlocked.blocks ∧
    searchUsers stBlocked dToday 1 "bob" none none = [userBob] := by
  decide

/-- C2: the claim says that when no age predicate is built (here:
neither bound given), a candidate whose username does not contain the
fragment is not returned.  The code violates it: the empty
`ageCondition` object `{}` is placed in `$or`, and an empty query
document matches every document, so Carol is returned to Alice even
though "carol" does not contain the fragment "zzz". -/
theorem C2_username_filter_bypassed :
    ciContains userCarol.username "zzz" = false ∧
    searchUsers stPlain dToday 1 "zzz" none none = [userCarol] := by
  decide

/-- C3 counterexample: the claim says the `minAge`-only predicate
accepts birthdates on or before `today − minAge years`; on 2026-10-12
with `minAge = 20` the code's cutoff is January 1 2006, so the
birthdate 2006-06-01 is accepted by the claimed predicate but rejected
by the built one. -/
theorem C3_minAge_cutoff_counterexample :
    specAgeAccepts dToday (some 20) none ⟨2006, 6, 1⟩ = true ∧
    birthdateFilterMatches (mkAgeCondition dToday (some 20) none) ⟨2006, 6, 1⟩
      = false := by
  decide

/-- C3 (amended): the age predicate is built exactly as claimed except
in the `minAge`-only case, whose cutoff is January 1 of
`currentYear − minAge` rather than `today − minAge years`. -/
theorem C3_age_condition_construction (today : SimpleDate)
    (minAge maxAge : Option Int) (b : SimpleDate) :
    birthdateFilterMatches (mkAgeCondition today minAge maxAge) b
      = amendedAgeAccepts today minAge maxAge b := by
  cases minAge with
  | none =>
    cases maxAge <;>
      simp [mkAgeCondition, amendedAgeAccepts, birthdateFilterMatches]
  | some mn =>
    cases maxAge with
    | none => simp [mkAgeCondition, amendedAgeAccepts, birthdateFilterMatches]
    | some mx =>
      by_cases h : mn ≤ mx <;>
        simp [mkAgeCondition, amendedAgeAccepts, birthdateFilterMatches, h]

/-- C4: `fetchUser` is cache-aside: a cache hit returns the cached
snapshot with the state untouched (the store is not read); on a miss a
record found in the store is returned and written into the cache with
expiry `now + 3600` (one hour); on a miss with no store record the
result is `NotFound` and the state — the cache included — is
untouched. -/
theorem C4_cache_aside_fetch (st : ServiceState) (now uid : Nat) :
    (∀ u, redisGet st.cache now uid = some u → getUser st now uid = (some u, st)) ∧
    (redisGet st.cache now uid = none →
      ∀ u, findById st.users uid = some u →
        getUser st now uid =
          (some u, { st with cache := redisSetEx st.cache uid u (now + 3600) })) ∧
    (redisGet st.cache now uid = none → findById st.users uid = none →
      getUser st now uid = (none, st)) := by
  refine ⟨fun u h => ?_, fun h u h2 => ?_, fun h h2 => ?_⟩
  · simp [getUser, h]
  · simp [getUser, h, h2]
  · simp [getUser, h, h2]

def uW4 : User := ⟨1, "Ann", "", "ann", ⟨2000, 1, 1⟩⟩

def stW4 : ServiceState := ⟨[uW4], [], []⟩

theorem C4_cache_aside_fetch_witness :
    getUser stW4 0 1 =
      (some uW4, { stW4 with cache := redisSetEx stW4.cache 1 uW4 (0 + 3600) }) ∧
    getUser stW4 0 2 = (none, stW4) :=
  ⟨(C4_cache_aside_fetch stW4 0 1).2.1 rfl uW4 rfl,
   (C4_cache_aside_fetch stW4 0 2).2.2 rfl rfl⟩

/-- `findById` only returns a record carrying the requested id. -/
theorem findById_id (users : List User) (uid : Nat) (u : User)
    (h : findById users uid = some u) : u._id = uid := by
  have hp := List.find?_some h
  simpa using hp

/-- C5: `blockUser` fails with `'User not found'` when the target does
not resolve; with `'You cannot block yourself'` when the target is the
actor; with `'User already blocked'` when an `(actor, target)` edge
already exists; and otherwise persists the `(actor, target)` edge and
returns the target's record. -/
theorem C5_blockUser_contract (st : ServiceState)
    (actorId targetId newBlockId : Nat) :
    (findById st.users targetId = none →
      blockUser st actorId targetId newBlockId = .error .userNotFound) ∧
    (∀ tu, findById st.users targetId = some tu → targetId = actorId →
      blockUser st actorId targetId newBlockId = .error .cannotBlockSelf) ∧
    (∀ tu au, findById st.users targetId = some tu → targetId ≠ actorId →
      findById st.users actorId = some au →
      (∃ b ∈ st.blocks, b.userId = actorId ∧ b.blockedUserId = targetId) →
      blockUser st actorId targetId newBlockId = .error .alreadyBlocked) ∧
    (∀ tu au, findById st.users targetId = some tu → targetId ≠ actorId →
      findById st.users actorId = some au →
      (∀ b ∈ st.blocks, ¬(b.userId = actorId ∧ b.blockedUserId = targetId)) →
      blockUser st actorId targetId newBlockId =
        .ok (tu, { st with blocks := st.blocks ++ [⟨newBlockId, actorId, targetId⟩] })) := by
  refine ⟨fun h => ?_, fun tu htu heq => ?_, fun tu au htu hne hau hex => ?_,
    fun tu au htu hne hau hno => ?_⟩
  · simp [blockUser, h]
  · subst heq
    simp [blockUser, htu]
  · have hau1 : au._id = actorId := findById_id _ _ _ hau
    have htu1 : tu._id = targetId := findById_id _ _ _ htu
    obtain ⟨b, hb, hb1, hb2⟩ := hex
    rcases hfind : st.blocks.find?
        (fun b => b.userId == au._id && b.blockedUserId == tu._id) with _ | bf
    · rw [List.find?_eq_none] at hfind
      exact absurd (by simp [hau1, htu1, hb1, hb2]) (hfind b hb)
    · simp [blockUser, htu, hau, hne, hfind]
  · have hau1 : au._id = actorId := findById_id _ _ _ hau
    have htu1 : tu._id = targetId := findById_id _ _ _ htu
    have hfind : st.blocks.find?
        (fun b => b.userId == au._id && b.blockedUserId == tu._id) = none := by
      rw [List.find?_eq_none]
      intro b hb
      have := hno b hb
      simp [hau1, htu1]
      intro h1
      exact fun h2 => this ⟨h1, h2⟩
    rw [hau1, htu1] at hfind
    simp [blockUser, htu, hau, hne, hfind, hau1, htu1]

def stW5 : ServiceState := ⟨[userAlice, userBob], [], []⟩

theorem C5_blockUser_contract_witness :
    blockUser stW5 1 2 50 =
      .ok (userBob, { stW5 with blocks := [⟨50, 1, 2⟩] }) :=
  (C5_blockUser_contract stW5 1 2 50).2.2.2 userBob userAlice (by rfl)
    (by decide) (by rfl) (by simp [stW5])

/-- C6: a successful `updateUser` overwrites the cache entry for the
subject with the new snapshot (expiry reset to `now + 3600`), so an
immediately following `fetchUser` hits the cache and returns exactly
the updated record, leaving the state unchanged. -/
theorem C6_update_visible_via_fetch (st : ServiceState) (now uid : Nat)
    (dto : UpdateUserDto) (u1 : User) (st1 : ServiceState)
    (h : updateUser st now uid dto = .ok (u1, st1)) :
    getUser st1 now uid = (some u1, st1) := by
  unfold updateUser at h
  rcases hf : findByIdAndUpdate st.users uid dto with ⟨ou, users1⟩
  rw [hf] at h
  cases ou with
  | none => simp at h
  | some uu =>
    simp only [Except.ok.injEq, Prod.mk.injEq] at h
    obtain ⟨hu, hst⟩ := h
    subst hu
    subst hst
    have hlt : now < now + 3600 := by omega
    simp [getUser, redisGet, redisSetEx, hlt]

def uW6 : User := ⟨1, "Ann", "", "ann", ⟨2000, 1, 1⟩⟩

def dtoW6 : UpdateUserDto := ⟨some "Beth", none, none, none⟩

def uW6r : User := ⟨1, "Beth", "", "ann", ⟨2000, 1, 1⟩⟩

def stW6 : ServiceState := ⟨[uW6], [], []⟩

def stW6r : ServiceState := ⟨[uW6r], [], [(1, ⟨uW6r, 3600⟩)]⟩

theorem C6_update_visible_via_fetch_witness :
    getUser stW6r 0 1 = (some uW6r, stW6r) :=
  C6_update_visible_via_fetch stW6 0 1 dtoW6 uW6r stW6r (by rfl)

/-- C7: after `deleteUser` for user `uid`, no block edge with `uid` as
blocker and none with `uid` as blockee remains in the store — the
`deleteMany` with `$or` on `userId` / `blockedUserId` cascades to every
edge referencing the deleted user on either side. -/
theorem C7_delete_cascades_blocks (st : ServiceState) (uid : Nat) :
    ∀ b ∈ ((deleteUser st uid).1).blocks,
      b.userId ≠ uid ∧ b.blockedUserId ≠ uid := by
  intro b hb
  simp only [deleteUser, List.mem_filter, Bool.not_eq_eq_eq_not, Bool.not_true,
    Bool.or_eq_false_iff, beq_eq_false_iff_ne] at hb
  exact hb.2

def stW7 : ServiceState := ⟨[], [⟨9, 1, 2⟩], []⟩

theorem C7_delete_cascades_blocks_witness :
    (Block.mk 9 1 2).userId ≠ 3 ∧ (Block.mk 9 1 2).blockedUserId ≠ 3 :=
  C7_delete_cascades_blocks stW7 3 ⟨9, 1, 2⟩ (by decide)

/-- C8: `unblockUser` always acknowledges success — also when no
matching edge exists — and removes exactly the edges equal to the
ordered pair `(actor, target)`: every other edge survives, and every
surviving edge was already present and is not an `(actor, target)`
edge. -/
theorem C8_unblock_exact_pair (st : ServiceState) (actorId targetId : Nat) :
    (unblockUser st actorId targetId).2 = true ∧
    (∀ b ∈ st.blocks, ¬(b.userId = actorId ∧ b.blockedUserId = targetId) →
      b ∈ ((unblockUser st actorId targetId).1).blocks) ∧
    (∀ b ∈ ((unblockUser st actorId targetId).1).blocks,
      b ∈ st.blocks ∧ ¬(b.userId = actorId ∧ b.blockedUserId = targetId)) := by
  refine ⟨rfl, fun b hb hnot => ?_, fun b hb => ?_⟩
  · simp only [unblockUser, List.mem_filter, Bool.not_eq_eq_eq_not,
      Bool.not_true, Bool.and_eq_false_iff, beq_eq_false_iff_ne]
    refine ⟨hb, ?_⟩
    by_cases h1 : b.userId = actorId
    · exact Or.inr fun h2 => hnot ⟨h1, h2⟩
    · exact Or.inl h1
  · simp only [unblockUser, List.mem_filter, Bool.not_eq_eq_eq_not,
      Bool.not_true, Bool.and_eq_false_iff, beq_eq_false_iff_ne] at hb
    refine ⟨hb.1, fun hpair => ?_⟩
    rcases hb.2 with h | h
    · exact h hpair.1
    · exact h hpair.2

def stW8 : ServiceState := ⟨[], [⟨7, 1, 2⟩], []⟩

theorem C8_unblock_exact_pair_witness :
    (unblockUser stW8 3 4).2 = true ∧
    Block.mk 7 1 2 ∈ ((unblockUser stW8 3 4).1).blocks :=
  ⟨(C8_unblock_exact_pair stW8 3 4).1,
   (C8_unblock_exact_pair stW8 3 4).2.1 ⟨7, 1, 2⟩ (by decide) (by decide)⟩

/-- C9: issuing a token for a subject and verifying it with the same
configured secret succeeds and yields the subject; verification fails
with `InvalidTokenError` when the signature does not match the
configured secret or the token is malformed. -/
theorem C9_token_roundtrip :
    (∀ secret subject, jwtVerify secret (jwtSign secret subject) = .ok subject) ∧
    (∀ secret subject sig, sig ≠ macSig secret subject →
      jwtVerify secret (.signed subject sig) = .error .invalidToken) ∧
    (∀ secret raw, jwtVerify secret (.malformed raw) = .error .invalidToken) := by
  refine ⟨fun s n => ?_, fun s n sg h => ?_, fun s r => rfl⟩
  · simp [jwtVerify, jwtSign]
  · simp [jwtVerify, h]

theorem C9_token_roundtrip_witness :
    jwtVerify "k" (jwtSign "k" 5) = .ok 5 ∧
    jwtVerify "k" (.signed 5 0) = .error .invalidToken :=
  ⟨C9_token_roundtrip.1 "k" 5, C9_token_roundtrip.2.1 "k" 5 0 (by decide)⟩

/-- C10: `deleteUser` never touches the cache, so a live cache entry
for the deleted subject survives: a `fetchUser` within the remaining
TTL still hits the cache and returns the stale (deleted) snapshot
instead of `NotFound`. -/
theorem C10_delete_leaves_cache_stale (st : ServiceState) (now uid : Nat)
    (u : User) (h : redisGet st.cache now uid = some u) :
    getUser ((deleteUser st uid).1) now uid = (some u, (deleteUser st uid).1) := by
  simp [getUser, deleteUser, h]

def uW10 : User := ⟨1, "Ann", "", "ann", ⟨2000, 1, 1⟩⟩

def stW10 : ServiceState := ⟨[uW10], [], [(1, ⟨uW10, 100⟩)]⟩

theorem C10_delete_leaves_cache_stale_witness :
    getUser ((deleteUser stW10 1).1) 0 1 = (some uW10, (deleteUser stW10 1).1) :=
  C10_delete_leaves_cache_stale stW10 0 1 uW10 (by rfl)

end UserManagement
